import Mathlib

/-!
# Verification of the photo-sorter sorting engine

Shallow embedding of `src/photo_sorter/cli/sort.py` (class `PhotoSorter`) and
`src/photo_sorter/utils.py` (`get_creation_date`), together with proofs of the
behavioural properties claimed for them.

Modelling conventions:
* Python strings are Lean `String`s; `os.path.join`, `os.path.basename` and
  `os.path.splitext` are embedded with POSIX `'/'` separator semantics.
* File contents are byte lists (`List Nat`); `filecmp.cmp(..., shallow=False)`
  is byte-list equality; `os.path.getsize` is the byte-list length.
* Timestamps are calendar date-times.  `os.path.getmtime` followed by
  `datetime.fromtimestamp` is modelled directly as the file's modification
  date-time (the composition is a bijection onto the representable range and
  the code only ever formats the result with `strftime`).
* The thread-pool engine (`PhotoSorter.sort`) is modelled sequentially in
  submission order; the aggregation lists collect outcomes in that order.
* Exceptions raised by `shutil.copy2` are modelled by an explicit failure
  environment `copyFail : String -> Option (List Nat)`: `copyFail dest = some
  bs` means the copy to `dest` raises after writing the bytes `bs` (Python's
  `shutil.copy2` does not remove what it already wrote when it raises).
  A failure-free run uses the environment that always returns `none`.
-/

namespace PhotoSorter

/-! ## Decimal rendering of naturals (Python `f"{i}"`) -/

/-- Decimal digits of `n`, least significant first, with explicit fuel so that
the kernel can evaluate it.  `fuel = n + 1` always suffices. -/
def toDigitsRevAux : Nat → Nat → List Nat
  | _, 0 => []
  | n, fuel + 1 => if n < 10 then [n] else n % 10 :: toDigitsRevAux (n / 10) fuel

/-- Value of a least-significant-first digit list. -/
def ofDigitsRev : List Nat → Nat
  | [] => 0
  | d :: ds => d + 10 * ofDigitsRev ds

/-- The character for a decimal digit. -/
def digitCh (d : Nat) : Char := Char.ofNat (48 + d)

/-- Inverse of `digitCh` on decimal digits. -/
def charToDigit (c : Char) : Nat := c.toNat - 48

/-- Decimal rendering of a natural number, as produced by Python `f"{i}"`. -/
def natToString (n : Nat) : String :=
  ⟨((toDigitsRevAux n (n + 1)).reverse).map digitCh⟩

/-! ## Strings: ASCII case mapping (Python `str.lower` / `str.upper` on the
ASCII extension strings the sorter manipulates) -/

def lowerCh (c : Char) : Char :=
  if 65 ≤ c.toNat ∧ c.toNat ≤ 90 then Char.ofNat (c.toNat + 32) else c

def upperCh (c : Char) : Char :=
  if 97 ≤ c.toNat ∧ c.toNat ≤ 122 then Char.ofNat (c.toNat - 32) else c

def lowerStr (s : String) : String := ⟨s.data.map lowerCh⟩

def upperStr (s : String) : String := ⟨s.data.map upperCh⟩

/-- Python slicing `s[n:]`. -/
def strDrop (n : Nat) (s : String) : String := ⟨s.data.drop n⟩

/-! ## POSIX path primitives (`os.path`) -/

/-- `os.path.join a b` with `'/'` separator (two-argument form; the code's
multi-argument joins are folds of this). -/
def pathJoin (a b : String) : String :=
  if b.data.head? = some '/' then b
  else if a = "" ∨ a.data.getLast? = some '/' then a ++ b
  else a ++ "/" ++ b

/-- `os.path.basename`: everything after the last `'/'`. -/
def basename (p : String) : String :=
  ⟨(p.data.reverse.takeWhile (fun c => c ≠ '/')).reverse⟩

/-- Index of the last `'.'` of a character list, if any. -/
def lastDotIdx (cs : List Char) : Option Nat :=
  match cs.reverse.findIdx? (fun c => c = '.') with
  | none => none
  | some r => some (cs.length - 1 - r)

/-- `os.path.splitext`: split off the extension of the basename; a dot run at
the start of the basename (e.g. `.bashrc`) does not start an extension. -/
def splitext (p : String) : String × String :=
  let b := (basename p).data
  let pre := p.data.take (p.data.length - b.length)
  match lastDotIdx b with
  | none => (⟨p.data⟩, "")
  | some k =>
    if (b.take k).all (fun c => c = '.') then (⟨p.data⟩, "")
    else (⟨pre ++ b.take k⟩, ⟨b.drop k⟩)

/-! ## Date-times and `strftime`-style formatting -/

structure DateTime where
  year : Nat
  month : Nat
  day : Nat
  hour : Nat
  minute : Nat
  second : Nat
deriving DecidableEq

/-- `strftime("%Y")`: the year as an unpadded decimal number.  CPython on
glibc does NOT zero-pad years below 1000: year 999 renders as `"999"`. -/
def formatYear (n : Nat) : String := natToString n

/-- `strftime("%m")`: the month, zero-padded to two digits. -/
def pad2 (n : Nat) : String :=
  ⟨List.replicate (2 - (natToString n).data.length) '0' ++ (natToString n).data⟩

/-! ## `datetime.strptime(s, "%Y:%m:%d %H:%M:%S")`

CPython's `_strptime` compiles the format to the anchored regular expression
`(\d\d\d\d):(1[0-2]|0[1-9]|[1-9]):(3[0-1]|[1-2]\d|0[1-9]|[1-9]| [1-9])\s+(2[0-3]|[0-1]\d|\d):([0-5]\d|\d):(6[0-1]|[0-5]\d|\d)`
(the literal space of the format matches any nonempty whitespace run, `%Y`
matches exactly four digits, `%d` also admits a space-padded day), raises on
leftover input, and then the `datetime` constructor validates the fields
(year 1-9999, day against the month length, seconds at most 59 even though
`%S` itself admits 60 and 61).  Each component below parses one directive
with its alternatives in the regex's order; since every alternative of a
directive is a prefix-extension of the later ones and is followed by a
character no shorter alternative could turn into a match (a colon, a
whitespace run or the end), this first-match parse equals the backtracking
regex match. -/

def isDigitCh (c : Char) : Bool := 48 ≤ c.toNat && c.toNat ≤ 57

/-- One character of the `\s` class (the ASCII part; the tags at issue are
ASCII). -/
def isSpaceCh (c : Char) : Bool :=
  c == ' ' || c == '\t' || c == '\n' || c == '\r' || c == '\x0b' || c == '\x0c'

/-- `%Y`: exactly four digits, `(\d\d\d\d)`. -/
def parseY : List Char → Option (Nat × List Char)
  | a :: b :: c :: d :: rest =>
    if isDigitCh a = true ∧ isDigitCh b = true ∧ isDigitCh c = true ∧ isDigitCh d = true then
      some (((charToDigit a * 10 + charToDigit b) * 10 + charToDigit c) * 10
        + charToDigit d, rest)
    else none
  | _ => none

/-- `%m`: `(1[0-2]|0[1-9]|[1-9])`. -/
def parseMonth : List Char → Option (Nat × List Char)
  | c1 :: c2 :: rest =>
    if c1 = '1' ∧ '0' ≤ c2 ∧ c2 ≤ '2' then some (10 + charToDigit c2, rest)
    else if c1 = '0' ∧ '1' ≤ c2 ∧ c2 ≤ '9' then some (charToDigit c2, rest)
    else if '1' ≤ c1 ∧ c1 ≤ '9' then some (charToDigit c1, c2 :: rest)
    else none
  | [c1] => if '1' ≤ c1 ∧ c1 ≤ '9' then some (charToDigit c1, []) else none
  | [] => none

/-- `%d`: `(3[0-1]|[1-2]\d|0[1-9]|[1-9]| [1-9])` — note the space-padded form. -/
def parseDay : List Char → Option (Nat × List Char)
  | c1 :: c2 :: rest =>
    if c1 = '3' ∧ ('0' ≤ c2 ∧ c2 ≤ '1') then some (30 + charToDigit c2, rest)
    else if (c1 = '1' ∨ c1 = '2') ∧ ('0' ≤ c2 ∧ c2 ≤ '9') then
      some (charToDigit c1 * 10 + charToDigit c2, rest)
    else if c1 = '0' ∧ ('1' ≤ c2 ∧ c2 ≤ '9') then some (charToDigit c2, rest)
    else if '1' ≤ c1 ∧ c1 ≤ '9' then some (charToDigit c1, c2 :: rest)
    else if c1 = ' ' ∧ ('1' ≤ c2 ∧ c2 ≤ '9') then some (charToDigit c2, rest)
    else none
  | [c1] => if '1' ≤ c1 ∧ c1 ≤ '9' then some (charToDigit c1, []) else none
  | [] => none

/-- `%H`: `(2[0-3]|[0-1]\d|\d)`. -/
def parseHour : List Char → Option (Nat × List Char)
  | c1 :: c2 :: rest =>
    if c1 = '2' ∧ ('0' ≤ c2 ∧ c2 ≤ '3') then some (20 + charToDigit c2, rest)
    else if (c1 = '0' ∨ c1 = '1') ∧ ('0' ≤ c2 ∧ c2 ≤ '9') then
      some (charToDigit c1 * 10 + charToDigit c2, rest)
    else if '0' ≤ c1 ∧ c1 ≤ '9' then some (charToDigit c1, c2 :: rest)
    else none
  | [c1] => if '0' ≤ c1 ∧ c1 ≤ '9' then some (charToDigit c1, []) else none
  | [] => none

/-- `%M`: `([0-5]\d|\d)`. -/
def parseMinute : List Char → Option (Nat × List Char)
  | c1 :: c2 :: rest =>
    if ('0' ≤ c1 ∧ c1 ≤ '5') ∧ ('0' ≤ c2 ∧ c2 ≤ '9') then
      some (charToDigit c1 * 10 + charToDigit c2, rest)
    else if '0' ≤ c1 ∧ c1 ≤ '9' then some (charToDigit c1, c2 :: rest)
    else none
  | [c1] => if '0' ≤ c1 ∧ c1 ≤ '9' then some (charToDigit c1, []) else none
  | [] => none

/-- `%S`: `(6[0-1]|[0-5]\d|\d)` — 60 and 61 match but `datetime` rejects them. -/
def parseSecond : List Char → Option (Nat × List Char)
  | c1 :: c2 :: rest =>
    if c1 = '6' ∧ ('0' ≤ c2 ∧ c2 ≤ '1') then some (60 + charToDigit c2, rest)
    else if ('0' ≤ c1 ∧ c1 ≤ '5') ∧ ('0' ≤ c2 ∧ c2 ≤ '9') then
      some (charToDigit c1 * 10 + charToDigit c2, rest)
    else if '0' ≤ c1 ∧ c1 ≤ '9' then some (charToDigit c1, c2 :: rest)
    else none
  | [c1] => if '0' ≤ c1 ∧ c1 ≤ '9' then some (charToDigit c1, []) else none
  | [] => none

/-- The literal `:` of the format. -/
def expectColon : List Char → Option (List Char)
  | c :: rest => if c = ':' then some rest else none
  | [] => none

/-- `\s+`: at least one whitespace character, consumed greedily. -/
def parseSpaces : List Char → Option (List Char)
  | c :: rest =>
    if isSpaceCh c = true then some (rest.dropWhile (fun x => isSpaceCh x)) else none
  | [] => none

def isLeapYear (y : Nat) : Bool :=
  y % 4 = 0 && (y % 100 ≠ 0 || y % 400 = 0)

def daysInMonth (y m : Nat) : Nat :=
  if m = 2 then (if isLeapYear y then 29 else 28)
  else if m = 4 ∨ m = 6 ∨ m = 9 ∨ m = 11 then 30
  else 31

/-- `datetime.strptime(s, "%Y:%m:%d %H:%M:%S")`, returning `none` where Python
raises `ValueError`: no regex match, leftover input, or a field the `datetime`
constructor rejects (year 0, day past the month's end, second 60 or 61). -/
def parseDateTime (s : String) : Option DateTime := do
  let (y, r1) ← parseY s.data
  let r2 ← expectColon r1
  let (mo, r3) ← parseMonth r2
  let r4 ← expectColon r3
  let (da, r5) ← parseDay r4
  let r6 ← parseSpaces r5
  let (h, r7) ← parseHour r6
  let r8 ← expectColon r7
  let (mi, r9) ← parseMinute r8
  let r10 ← expectColon r9
  let (se, r11) ← parseSecond r10
  if r11 = [] ∧ 1 ≤ y ∧ da ≤ daysInMonth y mo ∧ se ≤ 59 then
    some ⟨y, mo, da, h, mi, se⟩
  else none

/-! ## Association lists (Python `dict` with insertion order) -/

def assocLookup {α : Type} (l : List (String × α)) (k : String) : Option α :=
  match l with
  | [] => none
  | (k', v) :: rest => if k' = k then some v else assocLookup rest k

def natAssocLookup {α : Type} (l : List (Nat × α)) (k : Nat) : Option α :=
  match l with
  | [] => none
  | (k', v) :: rest => if k' = k then some v else natAssocLookup rest k

/-- Update a key in place, or append it (Python dict assignment). -/
def setAssoc {α : Type} (l : List (String × α)) (k : String) (v : α) :
    List (String × α) :=
  match l with
  | [] => [(k, v)]
  | (k', v') :: rest =>
    if k' = k then (k, v) :: rest else (k', v') :: setAssoc rest k v

/-! ## Source files and the destination filesystem -/

/-- A discovered source file.  `openable` models whether `PIL.Image.open`
succeeds on it; `exifData` is the `_getexif()` dictionary (tag number to raw
string value), `none` when `_getexif()` returns `None`; `mtime` is the
file's filesystem modification time. -/
structure SrcFile where
  path : String
  content : List Nat
  openable : Bool
  exifData : Option (List (Nat × String))
  mtime : DateTime
deriving DecidableEq

/-- The destination filesystem: regular files with contents, and directories. -/
structure FS where
  files : List (String × List Nat)
  dirs : List String
deriving DecidableEq

def allPaths (fs : FS) : List String := fs.files.map Prod.fst ++ fs.dirs

/-- `os.path.exists` on the destination filesystem. -/
def pathExists (fs : FS) (p : String) : Prop := p ∈ allPaths fs

instance (fs : FS) (p : String) : Decidable (pathExists fs p) :=
  inferInstanceAs (Decidable (p ∈ allPaths fs))

def lookupFile (fs : FS) (p : String) : Option (List Nat) :=
  assocLookup fs.files p

/-- `filecmp.cmp(src, p, shallow=False)`: `True` exactly when `p` is a
regular file whose bytes equal `content`.  When the existing path is a
directory, `filecmp.cmp` returns `False` without raising (it bails out on
any non-regular file before opening anything). -/
def cmpEq (fs : FS) (p : String) (content : List Nat) : Prop :=
  lookupFile fs p = some content

instance (fs : FS) (p : String) (content : List Nat) :
    Decidable (cmpEq fs p content) :=
  inferInstanceAs (Decidable (_ = _))

/-- `os.makedirs(d, exist_ok=True)`. -/
def addDir (fs : FS) (d : String) : FS :=
  if d ∈ fs.dirs then fs else { fs with dirs := fs.dirs ++ [d] }

/-- Create or overwrite a regular file. -/
def writeFile (fs : FS) (p : String) (c : List Nat) : FS :=
  { fs with files := setAssoc fs.files p c }

/-! ## `get_creation_date` (src/photo_sorter/utils.py) -/

/-- The body of the `try` block of `get_creation_date`: open the image, read
`_getexif()`, fetch tag 36867 and parse it.  `none` covers every way the block
can fail to `return` (open failure, absent or empty exif dictionary — Python's
`if exif_data:` is false on `{}` — missing tag, or `strptime` raising). -/
def exifAttempt (f : SrcFile) : Option DateTime :=
  if f.openable then
    match f.exifData with
    | some ed =>
      if ed.isEmpty then none
      else
        match natAssocLookup ed 36867 with
        | some s => parseDateTime s
        | none => none
    | none => none
  else none

/-- `get_creation_date`: embedded capture time when available, else the
modification time. -/
def get_creation_date (f : SrcFile) : DateTime :=
  match exifAttempt f with
  | some d => d
  | none => f.mtime

/-! ## Sorter configuration and state (class `PhotoSorter`) -/

structure SortConfig where
  destDir : String
  dryRun : Bool
  includeTypes : Option (List String)
  excludeTypes : Option (List String)
  extensionMapping : List (String × String)
deriving DecidableEq

/-- Python truthiness of an `Optional[list]`: `None` and `[]` are falsy. -/
def optNonempty : Option (List String) → Bool
  | none => false
  | some l => !l.isEmpty

/-- `os.path.splitext(file_path)[1].lower()`. -/
def fileExt (f : SrcFile) : String := lowerStr (splitext f.path).2

inductive Outcome where
  | sorted (source dest : String)
  | skipped (source dest : String)
  | error (source msg : String)
deriving DecidableEq

structure SorterState where
  fs : FS
  sortedFiles : List (String × String)
  skippedFiles : List (String × String)
  errors : List (String × String)
  fileCounts : List (String × Nat)
  processedFiles : Nat
deriving DecidableEq

/-- `self.file_counts[file_ext] = self.file_counts.get(file_ext, 0) + 1`. -/
def bumpCount (counts : List (String × Nat)) (k : String) : List (String × Nat) :=
  match assocLookup counts k with
  | some n => setAssoc counts k (n + 1)
  | none => setAssoc counts k 1

/-- The destination directory computed by `_process_file`: the mapped folder
when the extension is a key of the mapping, otherwise
`destDir/<year>/<month>/<EXT-without-dot-uppercased>`. -/
def destDirFor (cfg : SortConfig) (f : SrcFile) : String :=
  match assocLookup cfg.extensionMapping (fileExt f) with
  | some folder => pathJoin cfg.destDir folder
  | none =>
    let d := get_creation_date f
    pathJoin (pathJoin (pathJoin cfg.destDir (formatYear d.year)) (pad2 d.month))
      (upperStr (strDrop 1 (fileExt f)))

/-- The candidate destination file path, before collision resolution. -/
def candDest (cfg : SortConfig) (f : SrcFile) : String :=
  pathJoin (destDirFor cfg f) (basename f.path)

/-- The disambiguated candidate `dp/stem_i ext` tried by the collision loop. -/
def mkCand (dp stem ext : String) (i : Nat) : String :=
  pathJoin dp (stem ++ "_" ++ natToString i ++ ext)

/-- The collision `while True` loop: probe `stem_i ext` for `i = start,
start+1, …` until a non-existing path is found, with explicit fuel.  The fuel
`(allPaths fs).length + 1` used below provably suffices, so this equals the
unbounded loop. -/
def probeFrom (fs : FS) (dp stem ext : String) : Nat → Nat → String
  | 0, i => mkCand dp stem ext i
  | fuel + 1, i =>
    if pathExists fs (mkCand dp stem ext i) then probeFrom fs dp stem ext fuel (i + 1)
    else mkCand dp stem ext i

/-- Collision resolution: the first free `stem_i ext`, starting from `i = 1`. -/
def disambiguate (fs : FS) (dp stem ext : String) : String :=
  probeFrom fs dp stem ext ((allPaths fs).length + 1) 1

/-- The copy/dry-run tail of `_process_file`, entered with the final
destination path: in dry-run mode no filesystem mutation happens; otherwise
`os.makedirs(dest_path, exist_ok=True)` then `shutil.copy2`, whose failure
(`copyFail destFile = some bs`) leaves the bytes it wrote and raises, which
the enclosing `except` turns into an error outcome. -/
def finishCopy (copyFail : String → Option (List Nat)) (cfg : SortConfig)
    (st : SorterState) (f : SrcFile) (destPath destFile : String) :
    SorterState × Option Outcome :=
  if cfg.dryRun then (st, some (.sorted f.path destFile))
  else
    let st := { st with fs := addDir st.fs destPath }
    match copyFail destFile with
    | some bs =>
      ({ st with fs := writeFile st.fs destFile bs }, some (.error f.path "copy failed"))
    | none =>
      ({ st with fs := writeFile st.fs destFile f.content }, some (.sorted f.path destFile))

/-- `PhotoSorter._process_file`: filter, count, resolve the destination,
resolve duplicates/collisions, then copy (or simulate).  Returns the updated
sorter state and the tagged result value returned to the engine (`none` for a
filtered-out file).  Note that the duplicate branch itself appends to
`skipped_files`, exactly as the Python method does.  An existing destination
path that is a directory fails the `filecmp.cmp` test (it returns `False`)
and is therefore disambiguated like any colliding file. -/
def processFile (copyFail : String → Option (List Nat)) (cfg : SortConfig)
    (st : SorterState) (f : SrcFile) : SorterState × Option Outcome :=
  let ext := fileExt f
  if optNonempty cfg.includeTypes = true ∧ ext ∉ cfg.includeTypes.getD [] then
    (st, none)
  else if optNonempty cfg.excludeTypes = true ∧ ext ∈ cfg.excludeTypes.getD [] then
    (st, none)
  else
    let st := { st with processedFiles := st.processedFiles + 1,
                        fileCounts := bumpCount st.fileCounts ext }
    let destPath := destDirFor cfg f
    let filename := basename f.path
    let destFile := pathJoin destPath filename
    if pathExists st.fs destFile then
      if cmpEq st.fs destFile f.content then
        ({ st with skippedFiles := st.skippedFiles ++ [(f.path, destFile)] },
         some (.skipped f.path destFile))
      else
        let stem := (splitext filename).1
        let fext := (splitext filename).2
        finishCopy copyFail cfg st f destPath (disambiguate st.fs destPath stem fext)
    else
      finishCopy copyFail cfg st f destPath destFile

/-- The result-collection loop body of `PhotoSorter.sort`: append the returned
value to the list selected by its tag. -/
def collectStep (st : SorterState) (r : Option Outcome) : SorterState :=
  match r with
  | none => st
  | some (.sorted s d) => { st with sortedFiles := st.sortedFiles ++ [(s, d)] }
  | some (.skipped s d) => { st with skippedFiles := st.skippedFiles ++ [(s, d)] }
  | some (.error s m) => { st with errors := st.errors ++ [(s, m)] }

/-- One engine step: process a file, then collect its result. -/
def stepFile (copyFail : String → Option (List Nat)) (cfg : SortConfig)
    (st : SorterState) (f : SrcFile) : SorterState :=
  let pr := processFile copyFail cfg st f
  collectStep pr.1 pr.2

def initState (fs : FS) : SorterState := ⟨fs, [], [], [], [], 0⟩

/-- `os.path.getsize` summed over the discovered files. -/
def totalSize (files : List SrcFile) : Nat :=
  (files.map (fun f => f.content.length)).sum

inductive RunResult where
  | fatal (msg : String) (fs : FS)
  | done (st : SorterState)
deriving DecidableEq

/-- `PhotoSorter.sort`: check the disk-space precondition against the free
space at the destination, abort fatally if the discovered files do not fit,
otherwise process every discovered file and collect the outcomes.  The
thread pool is modelled sequentially in submission order. -/
def runSort (copyFail : String → Option (List Nat)) (cfg : SortConfig)
    (files : List SrcFile) (fs : FS) (free : Nat) : RunResult :=
  if totalSize files > free then .fatal "Not enough disk space" fs
  else .done (files.foldl (stepFile copyFail cfg) (initState fs))

/-! ## Projections used to state the claims -/

def runFS : RunResult → FS
  | .fatal _ fs => fs
  | .done st => st.fs

def runSorted : RunResult → List (String × String)
  | .fatal _ _ => []
  | .done st => st.sortedFiles

def runSkipped : RunResult → List (String × String)
  | .fatal _ _ => []
  | .done st => st.skippedFiles

def runErrors : RunResult → List (String × String)
  | .fatal _ _ => []
  | .done st => st.errors

def runIsDone : RunResult → Bool
  | .fatal _ _ => false
  | .done _ => true

/-- The failure-free copy environment. -/
def noFail : String → Option (List Nat) := fun _ => none

/-- A file passes the include/exclude filter (the negations of the two
short-circuit returns at the top of `_process_file`). -/
def filteredIn (cfg : SortConfig) (f : SrcFile) : Prop :=
  ¬(optNonempty cfg.includeTypes = true ∧ fileExt f ∉ cfg.includeTypes.getD []) ∧
  ¬(optNonempty cfg.excludeTypes = true ∧ fileExt f ∈ cfg.excludeTypes.getD [])

instance (cfg : SortConfig) (f : SrcFile) : Decidable (filteredIn cfg f) :=
  inferInstanceAs (Decidable (¬_ ∧ ¬_))

/-- Digit characters, used to reason about formatted year/month segments. -/
def isDig (c : Char) : Prop := 48 ≤ c.toNat ∧ c.toNat ≤ 57

instance (c : Char) : Decidable (isDig c) :=
  inferInstanceAs (Decidable (_ ∧ _))

/-! ## Concrete scenarios used to instantiate and to refute claims -/

def fsEmpty : FS := ⟨[], []⟩

/-- The spec's concrete scenario: `a.jpg` with capture time 2023-05-10, and a
byte-identical copy of it in a subfolder. -/
def c1a : SrcFile :=
  ⟨"src/a.jpg", [1, 2, 3], true, some [(36867, "2023:05:10 12:00:00")], ⟨2020, 1, 1, 0, 0, 0⟩⟩

def c1b : SrcFile :=
  ⟨"src/sub/a.jpg", [1, 2, 3], true, some [(36867, "2023:05:10 12:00:00")], ⟨2020, 1, 1, 0, 0, 0⟩⟩

def c1cfg : SortConfig := ⟨"dest", false, none, none, []⟩

/-- A `.jpg` file, with `.jpg` in both the include and the exclude list. -/
def c2cfg : SortConfig := ⟨"dest", false, some [".jpg"], some [".jpg"], []⟩

def c2file : SrcFile := ⟨"s/a.jpg", [1], true, none, ⟨2020, 1, 1, 0, 0, 0⟩⟩

/-- Two same-named, byte-different source files routed to one folder. -/
def c3g1 : SrcFile := ⟨"s/x/photo.jpg", [1], true, none, ⟨2020, 1, 1, 0, 0, 0⟩⟩

def c3g2 : SrcFile := ⟨"s/y/photo.jpg", [2], true, none, ⟨2020, 1, 1, 0, 0, 0⟩⟩

def c3cfg : SortConfig := ⟨"dest", false, none, none, [(".jpg", "Pics")]⟩

def c3run1 : RunResult := runSort noFail c3cfg [c3g1, c3g2] fsEmpty 1000

def c3run2 : RunResult := runSort noFail c3cfg [c3g1, c3g2] (runFS c3run1) 1000

/-- A second-run scenario where the destination already holds the identical
candidate copy. -/
def c3wf : SrcFile :=
  ⟨"s/b.jpg", [7], true, some [(36867, "2024:01:05 00:00:00")], ⟨2020, 1, 1, 0, 0, 0⟩⟩

def c3wfs : FS := ⟨[("dest/2024/01/JPG/b.jpg", [7])], ["dest/2024/01/JPG"]⟩

/-- Destination already holding `photo.jpg` and `photo_1.jpg`, both
byte-different from the incoming `photo.jpg`. -/
def c4cfg : SortConfig := ⟨"d", false, none, none, [(".jpg", "P")]⟩

def c4f : SrcFile := ⟨"s/photo.jpg", [3], true, none, ⟨2020, 1, 1, 0, 0, 0⟩⟩

def c4fs : FS := ⟨[("d/P/photo.jpg", [1]), ("d/P/photo_1.jpg", [2])], ["d/P"]⟩

/-- A copy that fails after writing 2 of the 4 source bytes. -/
def c5fail : String → Option (List Nat) :=
  fun p => if p = "d/V/v.jpg" then some [1, 2] else none

def c5cfg : SortConfig := ⟨"d", false, none, none, [(".jpg", "V")]⟩

def c5f : SrcFile := ⟨"s/v.jpg", [1, 2, 3, 4], true, none, ⟨2020, 1, 1, 0, 0, 0⟩⟩

def c5run : RunResult := runSort c5fail c5cfg [c5f] fsEmpty 1000

/-- Two byte-identical same-named files from different subfolders: the real
run copies the first and then skips the second, the dry run reports both as
sorted. -/
def c6d1 : SrcFile := ⟨"s/a/x.jpg", [5], true, none, ⟨2020, 1, 1, 0, 0, 0⟩⟩

def c6d2 : SrcFile := ⟨"s/b/x.jpg", [5], true, none, ⟨2020, 1, 1, 0, 0, 0⟩⟩

def c6cfgDry : SortConfig := ⟨"dest", true, none, none, [(".jpg", "P")]⟩

def c6cfgReal : SortConfig := ⟨"dest", false, none, none, [(".jpg", "P")]⟩

/-- A 5-byte file against 2 bytes of free space. -/
def c7file : SrcFile := ⟨"s/big.jpg", [1, 2, 3, 4, 5], true, none, ⟨2020, 1, 1, 0, 0, 0⟩⟩

def c7cfg : SortConfig := ⟨"dest", false, none, none, []⟩

/-- A file with a parseable capture-time tag. -/
def c8good : SrcFile :=
  ⟨"s/g.jpg", [1], true, some [(36867, "2023:05:10 12:00:00")], ⟨2019, 2, 3, 4, 5, 6⟩⟩

/-- A file with a malformed capture-time tag. -/
def c8bad : SrcFile :=
  ⟨"s/b.jpg", [1], true, some [(36867, "not a date")], ⟨2018, 11, 30, 1, 2, 3⟩⟩

/-- A file that cannot be opened as an image. -/
def c8plain : SrcFile := ⟨"s/p.txt", [1], false, none, ⟨2017, 6, 15, 0, 0, 0⟩⟩

/-- A file whose capture-time tag separates date and time with a tab, which
`strptime`'s `\s+` accepts. -/
def c8tab : SrcFile :=
  ⟨"s/t.jpg", [1], true, some [(36867, "2023:05:10\t12:00:00")], ⟨2016, 1, 2, 3, 4, 5⟩⟩

def c9cfg : SortConfig := ⟨"dest", false, none, none, [(".mov", "Videos")]⟩

/-- A file whose capture year is below 1000 (reachable: `%Y` matches the
four digits of tag `0999:01:01 00:00:00`, giving year 999, which
`strftime("%Y")` then renders as the three characters `999`). -/
def c9old : SrcFile :=
  ⟨"s/old.jpg", [1], true, some [(36867, "0999:01:01 00:00:00")], ⟨2020, 1, 1, 0, 0, 0⟩⟩

def c9mov : SrcFile :=
  ⟨"s/clip.mov", [1], true, some [(36867, "2023:05:10 12:00:00")], ⟨2020, 1, 1, 0, 0, 0⟩⟩

def c9jpg : SrcFile :=
  ⟨"s/pic.jpg", [1], true, some [(36867, "2023:05:10 12:00:00")], ⟨2020, 1, 1, 0, 0, 0⟩⟩

/-- An extensionless file falling back to its modification time. -/
def c10f : SrcFile := ⟨"s/README", [1], false, none, ⟨2021, 7, 3, 0, 0, 0⟩⟩

def c10cfg : SortConfig := ⟨"dest", false, none, none, []⟩

/-! ## Basic lemmas -/

theorem assocLookup_some_mem {α : Type} {l : List (String × α)} {k : String} {v : α}
    (h : assocLookup l k = some v) : k ∈ l.map Prod.fst := by
  induction l with
  | nil => simp [assocLookup] at h
  | cons p rest ih =>
    obtain ⟨k', v'⟩ := p
    by_cases hk : k' = k
    · simp [hk]
    · rw [assocLookup, if_neg hk] at h
      simpa using Or.inr (ih h)

theorem optNonempty_of_mem {o : Option (List String)} {x : String}
    (h : x ∈ o.getD []) : optNonempty o = true := by
  cases o with
  | none => simp at h
  | some l =>
    cases l with
    | nil => simp at h
    | cons a t => rfl

/-! ## Claim C7: disk-space guard -/

/-- C7: when the total byte size of the discovered files exceeds the free
space at the destination, the run aborts with a single fatal error before any
file is processed: the filesystem is returned untouched and no per-file
outcome is produced. -/
theorem c7_disk_space_guard (copyFail : String → Option (List Nat))
    (cfg : SortConfig) (files : List SrcFile) (fs : FS) (free : Nat)
    (h : totalSize files > free) :
    runSort copyFail cfg files fs free = .fatal "Not enough disk space" fs := by
  unfold runSort
  rw [if_pos h]

/-- C7 witness: a 5-byte discovery against 2 free bytes aborts fatally. -/
theorem c7_disk_space_guard_witness :
    totalSize [c7file] > 2 ∧
    runSort noFail c7cfg [c7file] fsEmpty 2 = .fatal "Not enough disk space" fsEmpty :=
  ⟨by decide, c7_disk_space_guard noFail c7cfg [c7file] fsEmpty 2 (by decide)⟩

/-! ## Claim C1: outcome recording (code bug: skipped files are recorded twice) -/

/-- C1 (code bug exhibit): in the spec's own concrete scenario — `a.jpg` plus
a byte-identical `sub/a.jpg`, no filters, no mapping — the run records one
Sorted outcome, but the single Skipped task appears TWICE in the skipped
list: `_process_file` appends the pair itself and the collection loop appends
the returned value again. -/
theorem c1_skipped_outcome_recorded_twice :
    runSorted (runSort noFail c1cfg [c1a, c1b] fsEmpty 1000) =
      [("src/a.jpg", "dest/2023/05/JPG/a.jpg")] ∧
    runSkipped (runSort noFail c1cfg [c1a, c1b] fsEmpty 1000) =
      [("src/sub/a.jpg", "dest/2023/05/JPG/a.jpg"),
       ("src/sub/a.jpg", "dest/2023/05/JPG/a.jpg")] := by
  decide

/-! ## Claim C2: include/exclude precedence (corrected: exclude wins) -/

/-- C2 counterexample: with `.jpg` in both the include and the exclude list,
the file does NOT pass the filter — the whole run processes nothing: no
outcome, no state change. -/
theorem c2_counterexample_both_lists_excluded :
    runSort noFail c2cfg [c2file] fsEmpty 1000 = .done (initState fsEmpty) := by
  decide

/-- C2 (amended): for a file whose extension appears in both lists, EXCLUDE
takes precedence: the exclude check runs after the include check and silently
drops the file, producing no outcome and leaving the state untouched. -/
theorem c2_exclude_takes_precedence (copyFail : String → Option (List Nat))
    (cfg : SortConfig) (st : SorterState) (f : SrcFile)
    (hinc : fileExt f ∈ cfg.includeTypes.getD [])
    (hexc : fileExt f ∈ cfg.excludeTypes.getD []) :
    processFile copyFail cfg st f = (st, none) := by
  have hne := optNonempty_of_mem hexc
  simp only [processFile]
  rw [if_neg (fun hcon => hcon.2 hinc), if_pos ⟨hne, hexc⟩]

/-- C2 witness: the counterexample configuration satisfies the amended
statement's hypotheses. -/
theorem c2_exclude_takes_precedence_witness :
    fileExt c2file ∈ c2cfg.includeTypes.getD [] ∧
    fileExt c2file ∈ c2cfg.excludeTypes.getD [] ∧
    processFile noFail c2cfg (initState fsEmpty) c2file = (initState fsEmpty, none) :=
  ⟨by decide, by decide,
    c2_exclude_takes_precedence noFail c2cfg (initState fsEmpty) c2file
      (by decide) (by decide)⟩

/-! ## Claim C5: all-or-nothing copy (code bug: a partial file is left) -/

/-- C5 (code bug exhibit): when the copy of `s/v.jpg` fails after writing 2 of
its 4 bytes, the invocation returns an Error outcome but the 2-byte partial
file is still present at the destination afterwards — the code has no cleanup
between `shutil.copy2` raising and the `except` handler returning. -/
theorem c5_partial_destination_left_on_copy_failure :
    runErrors c5run = [("s/v.jpg", "copy failed")] ∧
    lookupFile (runFS c5run) "d/V/v.jpg" = some [1, 2] ∧
    some c5f.content ≠ lookupFile (runFS c5run) "d/V/v.jpg" := by
  decide

/-! ## Claim C3: idempotence (corrected: collision-disambiguated files are
re-copied on a second run) -/

/-- C3 counterexample: two same-named byte-different sources. The first run
places them at `photo.jpg` and `photo_1.jpg`; the second run, whose collision
probe checks existence only and never content, re-copies the second file to
the fresh `photo_2.jpg` and classifies it Sorted, not Skipped. -/
theorem c3_counterexample_second_run_copies_again :
    runSorted c3run2 = [("s/y/photo.jpg", "dest/Pics/photo_2.jpg")] ∧
    lookupFile (runFS c3run2) "dest/Pics/photo_2.jpg" = some [2] ∧
    lookupFile (runFS c3run1) "dest/Pics/photo_2.jpg" = none := by
  decide

/-! ## Claim C6: dry-run equivalence (corrected: equivalence is per file
against a fixed state, not across a whole multi-file run) -/

/-- C6 counterexample: two byte-identical same-named sources against an empty
destination. The real run classifies them Sorted then Skipped (the first copy
creates the duplicate the second sees); the dry run, which never mutates the
filesystem, classifies both Sorted. -/
theorem c6_counterexample_dry_vs_real_classification :
    runSorted (runSort noFail c6cfgDry [c6d1, c6d2] fsEmpty 1000) =
      [("s/a/x.jpg", "dest/P/x.jpg"), ("s/b/x.jpg", "dest/P/x.jpg")] ∧
    runSkipped (runSort noFail c6cfgDry [c6d1, c6d2] fsEmpty 1000) = [] ∧
    runSorted (runSort noFail c6cfgReal [c6d1, c6d2] fsEmpty 1000) =
      [("s/a/x.jpg", "dest/P/x.jpg")] ∧
    runSkipped (runSort noFail c6cfgReal [c6d1, c6d2] fsEmpty 1000) =
      [("s/b/x.jpg", "dest/P/x.jpg"), ("s/b/x.jpg", "dest/P/x.jpg")] := by
  decide

@[simp] theorem setDry_destDir (cfg : SortConfig) (b : Bool) :
    ({ cfg with dryRun := b } : SortConfig).destDir = cfg.destDir := rfl

@[simp] theorem setDry_includeTypes (cfg : SortConfig) (b : Bool) :
    ({ cfg with dryRun := b } : SortConfig).includeTypes = cfg.includeTypes := rfl

@[simp] theorem setDry_excludeTypes (cfg : SortConfig) (b : Bool) :
    ({ cfg with dryRun := b } : SortConfig).excludeTypes = cfg.excludeTypes := rfl

@[simp] theorem setDry_mapping (cfg : SortConfig) (b : Bool) :
    ({ cfg with dryRun := b } : SortConfig).extensionMapping = cfg.extensionMapping := rfl

@[simp] theorem setDry_dryRun (cfg : SortConfig) (b : Bool) :
    ({ cfg with dryRun := b } : SortConfig).dryRun = b := rfl

@[simp] theorem destDirFor_setDry (cfg : SortConfig) (b : Bool) (f : SrcFile) :
    destDirFor { cfg with dryRun := b } f = destDirFor cfg f := rfl

theorem collectStep_fs (st : SorterState) (r : Option Outcome) :
    (collectStep st r).fs = st.fs := by
  cases r with
  | none => rfl
  | some o => cases o <;> rfl

/-- In dry-run mode `_process_file` performs no filesystem mutation. -/
theorem processFile_dry_fs (copyFail : String → Option (List Nat))
    (cfg : SortConfig) (st : SorterState) (f : SrcFile) (h : cfg.dryRun = true) :
    (processFile copyFail cfg st f).1.fs = st.fs := by
  simp only [processFile, finishCopy, h, if_true]
  split
  · rfl
  split
  · rfl
  split
  · split
    · rfl
    · rfl
  · rfl

theorem stepFile_dry_fs (copyFail : String → Option (List Nat))
    (cfg : SortConfig) (st : SorterState) (f : SrcFile) (h : cfg.dryRun = true) :
    (stepFile copyFail cfg st f).fs = st.fs := by
  show (collectStep _ _).fs = st.fs
  rw [collectStep_fs]
  exact processFile_dry_fs copyFail cfg st f h

theorem foldl_dry_fs (copyFail : String → Option (List Nat)) (cfg : SortConfig)
    (h : cfg.dryRun = true) (files : List SrcFile) :
    ∀ st : SorterState, (files.foldl (stepFile copyFail cfg) st).fs = st.fs := by
  induction files with
  | nil => intro st; rfl
  | cons f rest ih =>
    intro st
    rw [List.foldl_cons, ih, stepFile_dry_fs copyFail cfg st f h]

/-- C6 (amended): dry-run equivalence holds per file, not per run: processing
one file in dry-run mode returns exactly the same outcome value (hence the
same Sorted/Skipped/Error classification) as a failure-free real run started
from the same sorter state, and a dry run — per file and over a whole run —
performs zero filesystem mutations.  (Across a multi-file run the
classifications can differ, because real-run copies change the filesystem
seen by later files; see the counterexample.) -/
theorem c6_dry_run_per_file_equivalence :
    (∀ (cfg : SortConfig) (st : SorterState) (f : SrcFile),
      (processFile noFail { cfg with dryRun := true } st f).2 =
        (processFile noFail { cfg with dryRun := false } st f).2) ∧
    (∀ (copyFail : String → Option (List Nat)) (cfg : SortConfig)
        (st : SorterState) (f : SrcFile),
      (processFile copyFail { cfg with dryRun := true } st f).1.fs = st.fs) ∧
    (∀ (copyFail : String → Option (List Nat)) (cfg : SortConfig)
        (files : List SrcFile) (fs : FS) (free : Nat),
      runFS (runSort copyFail { cfg with dryRun := true } files fs free) = fs) := by
  refine ⟨?_, ?_, ?_⟩
  · intro cfg st f
    simp only [processFile, finishCopy, noFail, setDry_includeTypes, setDry_excludeTypes,
      destDirFor_setDry, setDry_dryRun, if_true, Bool.false_eq_true, if_false]
    split
    · rfl
    split
    · rfl
    split
    · split
      · rfl
      · rfl
    · rfl
  · intro copyFail cfg st f
    exact processFile_dry_fs copyFail _ st f rfl
  · intro copyFail cfg files fs free
    unfold runSort
    split
    · rfl
    · show (files.foldl _ (initState fs)).fs = fs
      rw [foldl_dry_fs copyFail _ rfl files (initState fs)]
      rfl

/-! ## Claim C8: the date resolver is total and falls back to mtime -/

/-- C8: `get_creation_date` always returns a timestamp (it is a total
function).  When the file opens as an image, its exif dictionary is present
and nonempty, tag 36867 is present and parses in the pattern
`YYYY:MM:DD HH:MM:SS`, the parsed capture time is returned; in every failure
case — unopenable file, absent or empty metadata, missing tag, malformed
tag — the file's modification timestamp is returned instead. -/
theorem c8_date_resolver_total_with_fallback (f : SrcFile) :
    (∀ ed s d, f.openable = true → f.exifData = some ed → ed.isEmpty = false →
      natAssocLookup ed 36867 = some s → parseDateTime s = some d →
      get_creation_date f = d) ∧
    (f.openable = false → get_creation_date f = f.mtime) ∧
    (f.exifData = none → get_creation_date f = f.mtime) ∧
    (∀ ed, f.exifData = some ed → ed.isEmpty = true →
      get_creation_date f = f.mtime) ∧
    (∀ ed, f.exifData = some ed → natAssocLookup ed 36867 = none →
      get_creation_date f = f.mtime) ∧
    (∀ ed s, f.exifData = some ed → natAssocLookup ed 36867 = some s →
      parseDateTime s = none → get_creation_date f = f.mtime) := by
  refine ⟨?_, ?_, ?_, ?_, ?_, ?_⟩
  · intro ed s d ho he hne hl hp
    simp [get_creation_date, exifAttempt, ho, he, hne, hl, hp]
  · intro ho
    simp [get_creation_date, exifAttempt, ho]
  · intro he
    cases ho : f.openable <;> simp [get_creation_date, exifAttempt, ho, he]
  · intro ed he hemp
    cases ho : f.openable <;> simp [get_creation_date, exifAttempt, ho, he, hemp]
  · intro ed he hl
    cases ho : f.openable <;>
      cases hemp : ed.isEmpty <;>
        simp [get_creation_date, exifAttempt, ho, he, hemp, hl]
  · intro ed s he hl hp
    cases ho : f.openable <;>
      cases hemp : ed.isEmpty <;>
        simp [get_creation_date, exifAttempt, ho, he, hemp, hl, hp]

/-- C8 witness: a parseable tag yields its capture time (also with a tab
between date and time, which `strptime`'s `\s+` accepts); a malformed tag —
including a three-digit year, which `%Y` (exactly four digits) rejects — and
an unopenable file fall back to the modification time. -/
theorem c8_date_resolver_witness :
    get_creation_date c8good = ⟨2023, 5, 10, 12, 0, 0⟩ ∧
    get_creation_date c8tab = ⟨2023, 5, 10, 12, 0, 0⟩ ∧
    get_creation_date c8bad = c8bad.mtime ∧
    parseDateTime "999:01:01 00:00:00" = none ∧
    get_creation_date c8plain = c8plain.mtime :=
  ⟨(c8_date_resolver_total_with_fallback c8good).1 [(36867, "2023:05:10 12:00:00")]
      "2023:05:10 12:00:00" ⟨2023, 5, 10, 12, 0, 0⟩ rfl rfl (by decide) (by decide)
      (by decide),
   (c8_date_resolver_total_with_fallback c8tab).1 [(36867, "2023:05:10\t12:00:00")]
      "2023:05:10\t12:00:00" ⟨2023, 5, 10, 12, 0, 0⟩ rfl rfl (by decide) (by decide)
      (by decide),
   (c8_date_resolver_total_with_fallback c8bad).2.2.2.2.2 [(36867, "not a date")]
      "not a date" rfl (by decide) (by decide),
   by decide,
   (c8_date_resolver_total_with_fallback c8plain).2.1 rfl⟩

/-- A file whose candidate destination already holds its exact bytes is
classified Skipped; the step changes no filesystem state and appends nothing
to the sorted or error lists.  (Filtered-out files change nothing at all.) -/
theorem stepFile_skip_keeps (copyFail : String → Option (List Nat))
    (cfg : SortConfig) (st : SorterState) (f : SrcFile)
    (h : filteredIn cfg f → lookupFile st.fs (candDest cfg f) = some f.content) :
    (stepFile copyFail cfg st f).fs = st.fs ∧
    (stepFile copyFail cfg st f).sortedFiles = st.sortedFiles ∧
    (stepFile copyFail cfg st f).errors = st.errors := by
  by_cases h1 : optNonempty cfg.includeTypes = true ∧ fileExt f ∉ cfg.includeTypes.getD []
  · simp only [stepFile, processFile]
    rw [if_pos h1]
    exact ⟨rfl, rfl, rfl⟩
  by_cases h2 : optNonempty cfg.excludeTypes = true ∧ fileExt f ∈ cfg.excludeTypes.getD []
  · simp only [stepFile, processFile]
    rw [if_neg h1, if_pos h2]
    exact ⟨rfl, rfl, rfl⟩
  have hl : lookupFile st.fs (candDest cfg f) = some f.content := h ⟨h1, h2⟩
  have hex : pathExists st.fs (candDest cfg f) :=
    List.mem_append_left _ (assocLookup_some_mem hl)
  unfold candDest at hl hex
  simp only [stepFile, processFile]
  rw [if_neg h1, if_neg h2, if_pos hex,
    if_pos (show cmpEq st.fs (pathJoin (destDirFor cfg f) (basename f.path)) f.content
      from hl)]
  exact ⟨rfl, rfl, rfl⟩

/-- C3 (amended): a re-run is skip-only exactly on files whose CANDIDATE
destination path (the un-disambiguated one) already holds byte-identical
content: when every filtered-in file satisfies that — in particular after a
first run that placed every file at its candidate path — the second run
classifies every filtered-in file Skipped, copies nothing, creates no
disambiguated filename and leaves the destination filesystem unchanged.
Files that the first run placed under a disambiguated name do not satisfy it
and are re-copied under a fresh disambiguator (see the counterexample), so
the unrestricted idempotence claim fails. -/
theorem c3_second_run_all_skipped (copyFail : String → Option (List Nat))
    (cfg : SortConfig) (files : List SrcFile) (fs : FS) (free : Nat)
    (hfree : totalSize files ≤ free)
    (hdup : ∀ f ∈ files, filteredIn cfg f →
      lookupFile fs (candDest cfg f) = some f.content) :
    runIsDone (runSort copyFail cfg files fs free) = true ∧
    runFS (runSort copyFail cfg files fs free) = fs ∧
    runSorted (runSort copyFail cfg files fs free) = [] ∧
    runErrors (runSort copyFail cfg files fs free) = [] := by
  have hnot : ¬totalSize files > free := by omega
  unfold runSort
  rw [if_neg hnot]
  have key : ∀ (l : List SrcFile) (st : SorterState), st.fs = fs →
      (∀ f ∈ l, filteredIn cfg f → lookupFile fs (candDest cfg f) = some f.content) →
      (l.foldl (stepFile copyFail cfg) st).fs = fs ∧
      (l.foldl (stepFile copyFail cfg) st).sortedFiles = st.sortedFiles ∧
      (l.foldl (stepFile copyFail cfg) st).errors = st.errors := by
    intro l
    induction l with
    | nil => exact fun st hst _ => ⟨hst, rfl, rfl⟩
    | cons g rest ih =>
      intro st hst hall
      rw [List.foldl_cons]
      have hg : filteredIn cfg g → lookupFile st.fs (candDest cfg g) = some g.content := by
        rw [hst]; exact hall g (by simp)
      have hs := stepFile_skip_keeps copyFail cfg st g hg
      have hrest := ih (stepFile copyFail cfg st g) (hs.1.trans hst)
        (fun f hf => hall f (by simp [hf]))
      exact ⟨hrest.1, hrest.2.1.trans hs.2.1, hrest.2.2.trans hs.2.2⟩
  have k := key files (initState fs) rfl hdup
  exact ⟨rfl, k.1, k.2.1, k.2.2⟩

/-- C3 witness: one file whose candidate destination already holds its bytes;
the second run is pure skipping, with the filesystem unchanged. -/
theorem c3_second_run_all_skipped_witness :
    runIsDone (runSort noFail c1cfg [c3wf] c3wfs 100) = true ∧
    runFS (runSort noFail c1cfg [c3wf] c3wfs 100) = c3wfs ∧
    runSorted (runSort noFail c1cfg [c3wf] c3wfs 100) = [] ∧
    runErrors (runSort noFail c1cfg [c3wf] c3wfs 100) = [] :=
  c3_second_run_all_skipped noFail c1cfg [c3wf] c3wfs 100 (by decide) (by decide)

/-! ## Decimal rendering is injective (needed for the collision probe) -/

theorem toDigitsRevAux_lt_ten : ∀ (fuel n : Nat), ∀ d ∈ toDigitsRevAux n fuel, d < 10 := by
  intro fuel
  induction fuel with
  | zero => intro n d hd; simp [toDigitsRevAux] at hd
  | succ k ih =>
    intro n d hd
    unfold toDigitsRevAux at hd
    by_cases hn : n < 10
    · rw [if_pos hn] at hd
      simp at hd
      omega
    · rw [if_neg hn] at hd
      rcases List.mem_cons.mp hd with h | h
      · subst h; exact Nat.mod_lt _ (by omega)
      · exact ih _ d h

theorem ofDigitsRev_toDigitsRevAux : ∀ (fuel n : Nat), n < fuel →
    ofDigitsRev (toDigitsRevAux n fuel) = n := by
  intro fuel
  induction fuel with
  | zero => intro n h; omega
  | succ k ih =>
    intro n h
    unfold toDigitsRevAux
    by_cases hn : n < 10
    · rw [if_pos hn]
      simp [ofDigitsRev]
    · rw [if_neg hn]
      have hdiv : n / 10 < n := Nat.div_lt_self (by omega) (by omega)
      have hrec : ofDigitsRev (toDigitsRevAux (n / 10) k) = n / 10 := ih _ (by omega)
      simp [ofDigitsRev, hrec]
      omega

theorem digitCh_toNat {d : Nat} (h : d < 10) : (digitCh d).toNat = 48 + d := by
  interval_cases d <;> decide

theorem charToDigit_digitCh {d : Nat} (h : d < 10) : charToDigit (digitCh d) = d := by
  unfold charToDigit
  rw [digitCh_toNat h]
  omega

theorem map_charToDigit_digitCh : ∀ (l : List Nat), (∀ d ∈ l, d < 10) →
    (l.map digitCh).map charToDigit = l := by
  intro l
  induction l with
  | nil => intro _; rfl
  | cons d t ih =>
    intro hl
    simp only [List.map_cons, List.cons.injEq]
    exact ⟨charToDigit_digitCh (hl d (by simp)), ih (fun x hx => hl x (by simp [hx]))⟩

theorem natToString_inj {m n : Nat}
    (h : (natToString m).data = (natToString n).data) : m = n := by
  have e : ∀ k : Nat,
      ofDigitsRev (((natToString k).data.map charToDigit).reverse) = k := by
    intro k
    show ofDigitsRev
      ((((toDigitsRevAux k (k + 1)).reverse.map digitCh).map charToDigit).reverse) = k
    rw [map_charToDigit_digitCh _
      (fun d hd => toDigitsRevAux_lt_ten _ _ d (List.mem_reverse.mp hd)),
      List.reverse_reverse]
    exact ofDigitsRev_toDigitsRevAux _ _ (by omega)
  have hm := congrArg (fun l => ofDigitsRev ((l.map charToDigit).reverse)) h
  simp only at hm
  rw [e m, e n] at hm
  exact hm

/-! ## The collision probe returns the least free disambiguator -/

theorem sepName_data (stem ext : String) (i : Nat) :
    (stem ++ "_" ++ natToString i ++ ext).data
      = (stem.data ++ ['_']) ++ ((natToString i).data ++ ext.data) := by
  simp only [String.data_append, List.append_assoc]

theorem sepName_data_inj {stem ext : String} {i j : Nat}
    (h : (stem ++ "_" ++ natToString i ++ ext).data
      = (stem ++ "_" ++ natToString j ++ ext).data) : i = j := by
  rw [sepName_data, sepName_data] at h
  exact natToString_inj (List.append_cancel_right (List.append_cancel_left h))

theorem sepName_head (stem ext : String) (i : Nat) :
    (stem ++ "_" ++ natToString i ++ ext).data.head? = (stem.data ++ ['_']).head? := by
  rw [sepName_data, List.head?_append]
  cases h : (stem.data ++ ['_']).head? with
  | none => exact absurd h (by cases stem.data <;> simp)
  | some c => rfl

theorem mkCand_inj (dp stem ext : String) : ∀ {i j : Nat},
    mkCand dp stem ext i = mkCand dp stem ext j → i = j := by
  intro i j h
  unfold mkCand pathJoin at h
  by_cases hc : (stem ++ "_" ++ natToString i ++ ext).data.head? = some '/'
  · have hcj : (stem ++ "_" ++ natToString j ++ ext).data.head? = some '/' := by
      rw [sepName_head] at hc ⊢
      exact hc
    rw [if_pos hc, if_pos hcj] at h
    exact sepName_data_inj (congrArg String.data h)
  · have hcj : ¬(stem ++ "_" ++ natToString j ++ ext).data.head? = some '/' := by
      rw [sepName_head] at hc ⊢
      exact hc
    rw [if_neg hc, if_neg hcj] at h
    by_cases hd : dp = "" ∨ dp.data.getLast? = some '/'
    · rw [if_pos hd, if_pos hd] at h
      have hdata := congrArg String.data h
      rw [String.data_append, String.data_append] at hdata
      exact sepName_data_inj (List.append_cancel_left hdata)
    · rw [if_neg hd, if_neg hd] at h
      have hdata := congrArg String.data h
      rw [String.data_append, String.data_append] at hdata
      exact sepName_data_inj (List.append_cancel_left hdata)

theorem busy_le_paths (fs : FS) (dp stem ext : String) (N : Nat)
    (hbusy : ∀ m, 0 < m → m < N → pathExists fs (mkCand dp stem ext m)) :
    N ≤ (allPaths fs).length + 1 := by
  by_contra hcon
  push_neg at hcon
  have hsub : ((List.range' 1 ((allPaths fs).length + 1)).map (mkCand dp stem ext))
      ⊆ allPaths fs := by
    intro p hp
    rw [List.mem_map] at hp
    obtain ⟨i, hi, rfl⟩ := hp
    rw [List.mem_range'] at hi
    obtain ⟨k, hk, rfl⟩ := hi
    exact hbusy _ (by omega) (by omega)
  have hnd : ((List.range' 1 ((allPaths fs).length + 1)).map (mkCand dp stem ext)).Nodup :=
    List.Nodup.map (fun a b hab => mkCand_inj dp stem ext hab)
      (List.nodup_range' 1 ((allPaths fs).length + 1))
  have hlen := (hnd.subperm hsub).length_le
  simp only [List.length_map, List.length_range'] at hlen
  omega

theorem probeFrom_eq (fs : FS) (dp stem ext : String) :
    ∀ (fuel i N : Nat), i ≤ N → N < i + fuel →
      ¬pathExists fs (mkCand dp stem ext N) →
      (∀ m, i ≤ m → m < N → pathExists fs (mkCand dp stem ext m)) →
      probeFrom fs dp stem ext fuel i = mkCand dp stem ext N := by
  intro fuel
  induction fuel with
  | zero => intro i N h1 h2 _ _; omega
  | succ k ih =>
    intro i N h1 h2 hfree hbusy
    unfold probeFrom
    by_cases hi : pathExists fs (mkCand dp stem ext i)
    · rw [if_pos hi]
      have hiN : i ≠ N := fun e => hfree (e ▸ hi)
      exact ih (i + 1) N (by omega) (by omega) hfree
        (fun m hm1 hm2 => hbusy m (by omega) hm2)
    · rw [if_neg hi]
      have hiN : i = N := by
        by_contra hne
        exact hi (hbusy i (le_refl i) (by omega))
      rw [hiN]

/-- The collision loop, with its sufficient fuel, returns the candidate at the
LEAST free index `N`: strictly sequential, deterministic probing. -/
theorem disambiguate_eq (fs : FS) (dp stem ext : String) (N : Nat) (hN : 0 < N)
    (hfree : ¬pathExists fs (mkCand dp stem ext N))
    (hbusy : ∀ m, 0 < m → m < N → pathExists fs (mkCand dp stem ext m)) :
    disambiguate fs dp stem ext = mkCand dp stem ext N := by
  have hb := busy_le_paths fs dp stem ext N hbusy
  exact probeFrom_eq fs dp stem ext ((allPaths fs).length + 1) 1 N hN (by omega) hfree
    (fun m hm1 hm2 => hbusy m (by omega) hm2)

/-! ## Claim C4: deterministic sequential collision disambiguation -/

/-- C4: for a filtered-in source file whose candidate destination path exists
with different content, the outcome is Sorted to `stem_N ext` in the same
destination directory, where `N ≥ 1` is the LEAST index whose candidate does
not exist — the probe is strictly sequential and deterministic. -/
theorem c4_collision_least_disambiguator (cfg : SortConfig) (st : SorterState)
    (f : SrcFile) (c : List Nat) (N : Nat)
    (hfil : filteredIn cfg f)
    (hc : lookupFile st.fs (candDest cfg f) = some c)
    (hne : ¬c = f.content)
    (hN : 0 < N)
    (hfree : ¬pathExists st.fs (mkCand (destDirFor cfg f)
      (splitext (basename f.path)).1 (splitext (basename f.path)).2 N))
    (hbusy : ∀ m, 0 < m → m < N → pathExists st.fs (mkCand (destDirFor cfg f)
      (splitext (basename f.path)).1 (splitext (basename f.path)).2 m)) :
    (processFile noFail cfg st f).2 = some (.sorted f.path
      (mkCand (destDirFor cfg f)
        (splitext (basename f.path)).1 (splitext (basename f.path)).2 N)) := by
  have hex : pathExists st.fs (candDest cfg f) :=
    List.mem_append_left _ (assocLookup_some_mem hc)
  unfold candDest at hc hex
  have hncmp : ¬cmpEq st.fs (pathJoin (destDirFor cfg f) (basename f.path)) f.content := by
    intro hcon
    have hcon' : lookupFile st.fs (pathJoin (destDirFor cfg f) (basename f.path))
        = some f.content := hcon
    exact hne (Option.some.inj (hc.symm.trans hcon'))
  simp only [processFile]
  rw [if_neg hfil.1, if_neg hfil.2, if_pos hex, if_neg hncmp,
    disambiguate_eq st.fs _ _ _ N hN hfree hbusy]
  unfold finishCopy
  by_cases hd : cfg.dryRun = true
  · rw [if_pos hd]
  · rw [if_neg hd]
    simp [noFail]

/-- C4 witness: with `photo.jpg` and `photo_1.jpg` already present and
byte-different from the incoming `photo.jpg`, the file is sorted to
`photo_2.jpg`. -/
theorem c4_collision_least_disambiguator_witness :
    (processFile noFail c4cfg (initState c4fs) c4f).2 =
      some (.sorted "s/photo.jpg" "d/P/photo_2.jpg") := by
  have h := c4_collision_least_disambiguator c4cfg (initState c4fs) c4f [1] 2
    (by decide) (by decide) (by decide) (by decide) (by decide)
    (by intro m h1 h2; interval_cases m; decide)
  exact h.trans (by decide)

/-! ## Digit-string facts about the formatted year and month segments -/

theorem natToString_all_digits (n : Nat) : ∀ c ∈ (natToString n).data, isDig c := by
  intro c hc
  have hc' : c ∈ ((toDigitsRevAux n (n + 1)).reverse).map digitCh := hc
  rcases List.mem_map.mp hc' with ⟨d, hd, rfl⟩
  have hd10 := toDigitsRevAux_lt_ten _ _ d (List.mem_reverse.mp hd)
  unfold isDig
  rw [digitCh_toNat hd10]
  omega

theorem toDigitsRevAux_ne_nil (n : Nat) : toDigitsRevAux n (n + 1) ≠ [] := by
  unfold toDigitsRevAux
  by_cases hn : n < 10
  · rw [if_pos hn]; simp
  · rw [if_neg hn]; simp

theorem natToString_ne_nil (n : Nat) : (natToString n).data ≠ [] := by
  have h := toDigitsRevAux_ne_nil n
  show ((toDigitsRevAux n (n + 1)).reverse).map digitCh ≠ []
  simp [h]

theorem padded_all_digits (k n : Nat) :
    ∀ c ∈ List.replicate k '0' ++ (natToString n).data, isDig c := by
  intro c hc
  rcases List.mem_append.mp hc with h | h
  · rw [List.eq_of_mem_replicate h]
    exact (by decide : isDig '0')
  · exact natToString_all_digits n c h

theorem formatYear_all_digits (n : Nat) : ∀ c ∈ (formatYear n).data, isDig c :=
  fun c hc => natToString_all_digits n c hc

theorem pad2_all_digits (n : Nat) : ∀ c ∈ (pad2 n).data, isDig c :=
  fun c hc => padded_all_digits _ n c hc

theorem formatYear_ne_nil (n : Nat) : (formatYear n).data ≠ [] :=
  natToString_ne_nil n

theorem pad2_ne_nil (n : Nat) : (pad2 n).data ≠ [] := by
  show List.replicate _ '0' ++ (natToString n).data ≠ []
  simp [natToString_ne_nil n]

theorem head_ne_slash {l : List Char} (hall : ∀ c ∈ l, isDig c) :
    ¬l.head? = some '/' := by
  cases l with
  | nil => simp
  | cons a t =>
    intro hcon
    simp only [List.head?_cons, Option.some.injEq] at hcon
    subst hcon
    exact absurd (hall '/' (by simp)) (by decide)

theorem getLast_ne_slash {l : List Char} (hall : ∀ c ∈ l, isDig c) :
    ¬l.getLast? = some '/' := by
  intro hcon
  exact absurd (hall '/' (List.mem_of_getLast?_eq_some hcon)) (by decide)

theorem str_ne_empty_of_data {s : String} (h : s.data ≠ []) : s ≠ "" :=
  fun e => h (congrArg String.data e)

theorem strAppend_getLast (a b : String) (hb : b.data ≠ []) :
    (a ++ b).data.getLast? = b.data.getLast? := by
  rw [String.data_append, List.getLast?_append]
  cases h : b.data.getLast? with
  | none => exact absurd (List.getLast?_eq_none_iff.mp h) hb
  | some c => rfl

/-- `os.path.join` in the common case: a non-empty left part with no trailing
separator, and a right part with no leading separator, joined with `'/'`. -/
theorem pathJoin_eq (a b : String) (ha : ¬a = "") (ha2 : ¬a.data.getLast? = some '/')
    (hb : ¬b.data.head? = some '/') : pathJoin a b = a ++ "/" ++ b := by
  unfold pathJoin
  rw [if_neg hb, if_neg (not_or.mpr ⟨ha, ha2⟩)]

/-! ## Length of the formatted year and month -/

theorem toDigitsRevAux_len : ∀ (fuel n k : Nat), n < fuel → 1 ≤ k → n < 10 ^ k →
    (toDigitsRevAux n fuel).length ≤ k := by
  intro fuel
  induction fuel with
  | zero => intro n k h; omega
  | succ fl ih =>
    intro n k hf hk hn
    unfold toDigitsRevAux
    by_cases h10 : n < 10
    · rw [if_pos h10]; simpa using hk
    · rw [if_neg h10]
      simp only [List.length_cons]
      have hdiv : n / 10 < n := Nat.div_lt_self (by omega) (by omega)
      have hk2 : 2 ≤ k := by
        by_contra hcon
        have hk1 : k = 1 := by omega
        rw [hk1, pow_one] at hn
        omega
      have e : 10 ^ k = 10 ^ (k - 1) * 10 := by
        conv_lhs => rw [show k = (k - 1) + 1 by omega]
        rw [pow_succ]
      have hn2 : n / 10 < 10 ^ (k - 1) := by
        rw [Nat.div_lt_iff_lt_mul (by omega)]
        omega
      have := ih (n / 10) (k - 1) (by omega) (by omega) hn2
      omega

theorem natToString_len_le (n k : Nat) (hk : 1 ≤ k) (hn : n < 10 ^ k) :
    (natToString n).data.length ≤ k := by
  show (((toDigitsRevAux n (n + 1)).reverse).map digitCh).length ≤ k
  rw [List.length_map, List.length_reverse]
  exact toDigitsRevAux_len (n + 1) n k (by omega) hk hn

theorem toDigitsRevAux_len_ge : ∀ (fuel n k : Nat), n < fuel → 10 ^ k ≤ n →
    k + 1 ≤ (toDigitsRevAux n fuel).length := by
  intro fuel
  induction fuel with
  | zero => intro n k h; omega
  | succ fl ih =>
    intro n k hf hk
    unfold toDigitsRevAux
    by_cases h10 : n < 10
    · rw [if_pos h10]
      have hk0 : k = 0 := by
        by_contra hc
        have h1 : 1 ≤ k := by omega
        have h10k : 10 ≤ 10 ^ k := by
          calc (10 : Nat) = 10 ^ 1 := (pow_one 10).symm
          _ ≤ 10 ^ k := Nat.pow_le_pow_right (by omega) h1
        omega
      simp [hk0]
    · rw [if_neg h10]
      simp only [List.length_cons]
      by_cases hk0 : k = 0
      · omega
      · have hdiv : n / 10 < n := Nat.div_lt_self (by omega) (by omega)
        have e : 10 ^ k = 10 ^ (k - 1) * 10 := by
          conv_lhs => rw [show k = (k - 1) + 1 by omega]
          rw [pow_succ]
        have hk' : 10 ^ (k - 1) ≤ n / 10 := by
          rw [Nat.le_div_iff_mul_le (by omega)]
          omega
        have := ih (n / 10) (k - 1) (by omega) hk'
        omega

theorem natToString_len_ge (n k : Nat) (h : 10 ^ k ≤ n) :
    k + 1 ≤ (natToString n).data.length := by
  show k + 1 ≤ (((toDigitsRevAux n (n + 1)).reverse).map digitCh).length
  rw [List.length_map, List.length_reverse]
  exact toDigitsRevAux_len_ge (n + 1) n k (by omega) h

/-- The year segment has four digits exactly for years 1000-9999; below 1000
`strftime("%Y")` emits fewer digits. -/
theorem formatYear_len (n : Nat) (h1 : 1000 ≤ n) (h2 : n ≤ 9999) :
    (formatYear n).data.length = 4 := by
  have h4 : (10 : Nat) ^ 4 = 10000 := by norm_num
  have h3 : (10 : Nat) ^ 3 = 1000 := by norm_num
  have hle := natToString_len_le n 4 (by omega) (by omega)
  have hge := natToString_len_ge n 3 (by omega)
  show (natToString n).data.length = 4
  omega

theorem pad2_len (n : Nat) (h : n ≤ 99) : (pad2 n).data.length = 2 := by
  show (List.replicate (2 - (natToString n).data.length) '0' ++ (natToString n).data).length = 2
  rw [List.length_append, List.length_replicate]
  have h2 : (10 : Nat) ^ 2 = 100 := by norm_num
  have := natToString_len_le n 2 (by omega) (by omega)
  omega

/-- The `destDir/<year>/<month>` join: its flattened form, non-emptiness and
digit-final last character. -/
theorem dateDir_facts (dd : String) (y m : Nat)
    (hd1 : ¬dd = "") (hd2 : ¬dd.data.getLast? = some '/') :
    pathJoin (pathJoin dd (formatYear y)) (pad2 m)
      = dd ++ "/" ++ formatYear y ++ "/" ++ pad2 m ∧
    ¬(dd ++ "/" ++ formatYear y ++ "/" ++ pad2 m) = "" ∧
    ¬(dd ++ "/" ++ formatYear y ++ "/" ++ pad2 m).data.getLast? = some '/' := by
  have hYne := formatYear_ne_nil y
  have hMne := pad2_ne_nil m
  have hYd := formatYear_all_digits y
  have hMd := pad2_all_digits m
  have j1 : pathJoin dd (formatYear y) = dd ++ "/" ++ formatYear y :=
    pathJoin_eq _ _ hd1 hd2 (head_ne_slash hYd)
  have hne1 : ¬(dd ++ "/" ++ formatYear y) = "" :=
    str_ne_empty_of_data (by simp [String.data_append, hYne])
  have hl1 : ¬(dd ++ "/" ++ formatYear y).data.getLast? = some '/' := by
    rw [strAppend_getLast _ _ hYne]
    exact getLast_ne_slash hYd
  have j2 : pathJoin (dd ++ "/" ++ formatYear y) (pad2 m)
      = dd ++ "/" ++ formatYear y ++ "/" ++ pad2 m :=
    pathJoin_eq _ _ hne1 hl1 (head_ne_slash hMd)
  refine ⟨by rw [j1, j2], str_ne_empty_of_data (by simp [String.data_append, hMne]), ?_⟩
  rw [strAppend_getLast _ _ hMne]
  exact getLast_ne_slash hMd

/-! ## Claim C9: mapping precedence and the date-based destination shape
(corrected: the year segment is NOT always four digits) -/

/-- C9 counterexample: a capture year below 1000 is reachable — `%Y` matches
the four digits of the tag `0999:01:01 00:00:00`, giving year 999 — and
`strftime("%Y")` renders it unpadded, so the file is routed to
`dest/999/01/JPG`: the year segment has three characters, not four. -/
theorem c9_counterexample_three_digit_year :
    destDirFor c9cfg c9old = "dest/999/01/JPG" ∧
    ¬(formatYear (get_creation_date c9old).year).data.length = 4 := by
  decide

/-- C9 (amended): a file whose extension is a key of the extension mapping is
routed to `destDir/mapping[extension]`, and the result does not depend on any
of the file's date-bearing fields (so the Date Resolver result is never
consulted); an unmapped file is routed to
`destDir/<unpadded-decimal-year>/<zero-padded-2-digit-month>/<EXT-without-dot-upper>`
derived from its resolved capture time, and the year segment has four digits
exactly for capture years 1000-9999. -/
theorem c9_destination_resolution (cfg : SortConfig) (f : SrcFile) :
    (∀ folder, assocLookup cfg.extensionMapping (fileExt f) = some folder →
      destDirFor cfg f = pathJoin cfg.destDir folder ∧
      (∀ (b : Bool) (ed : Option (List (Nat × String))) (t : DateTime),
        destDirFor cfg ⟨f.path, f.content, b, ed, t⟩ = pathJoin cfg.destDir folder)) ∧
    (assocLookup cfg.extensionMapping (fileExt f) = none →
     ¬cfg.destDir = "" → ¬cfg.destDir.data.getLast? = some '/' →
     ¬(upperStr (strDrop 1 (fileExt f))).data.head? = some '/' →
      destDirFor cfg f =
        cfg.destDir ++ "/" ++ formatYear (get_creation_date f).year ++ "/" ++
          pad2 (get_creation_date f).month ++ "/" ++ upperStr (strDrop 1 (fileExt f)) ∧
      (1000 ≤ (get_creation_date f).year → (get_creation_date f).year ≤ 9999 →
        (formatYear (get_creation_date f).year).data.length = 4) ∧
      ((get_creation_date f).month ≤ 99 →
        (pad2 (get_creation_date f).month).data.length = 2)) := by
  constructor
  · intro folder hm
    have hfe : fileExt (⟨f.path, f.content, false, none, ⟨0, 0, 0, 0, 0, 0⟩⟩ : SrcFile)
        = fileExt f := rfl
    constructor
    · unfold destDirFor
      simp only [hm]
    · intro b ed t
      unfold destDirFor
      have hfe2 : fileExt (⟨f.path, f.content, b, ed, t⟩ : SrcFile) = fileExt f := rfl
      simp only [hfe2, hm]
  · intro hm hd1 hd2 hT
    have df := dateDir_facts cfg.destDir (get_creation_date f).year
      (get_creation_date f).month hd1 hd2
    refine ⟨?_, fun hy1 hy2 => formatYear_len _ hy1 hy2, fun hmo => pad2_len _ hmo⟩
    unfold destDirFor
    simp only [hm]
    rw [df.1]
    exact pathJoin_eq _ _ df.2.1 df.2.2 hT

/-- C9 witness: a mapped `.mov` goes to `dest/Videos` ignoring its dates; an
unmapped `.jpg` with capture time 2023-05 goes to `dest/2023/05/JPG`. -/
theorem c9_destination_resolution_witness :
    destDirFor c9cfg c9mov = pathJoin c9cfg.destDir "Videos" ∧
    destDirFor c9cfg c9jpg =
      c9cfg.destDir ++ "/" ++ formatYear (get_creation_date c9jpg).year ++ "/" ++
        pad2 (get_creation_date c9jpg).month ++ "/" ++ upperStr (strDrop 1 (fileExt c9jpg)) ∧
    destDirFor c9cfg c9jpg = "dest/2023/05/JPG" :=
  ⟨((c9_destination_resolution c9cfg c9mov).1 "Videos" (by decide)).1,
   ((c9_destination_resolution c9cfg c9jpg).2 (by decide) (by decide) (by decide)
      (by decide)).1,
   (((c9_destination_resolution c9cfg c9jpg).2 (by decide) (by decide) (by decide)
      (by decide)).1).trans (by decide)⟩

/-! ## Claim C10: extensionless files land directly in the month folder -/

/-- C10: for a file with no extension and no applicable mapping, the computed
type segment is the empty string; joining it appends only a trailing
separator, so the destination directory is the month folder itself and the
file's destination path is directly inside `destDir/<year>/<month>` — no
`UNKNOWN` or `NOEXT` segment is inserted. -/
theorem c10_extensionless_month_folder (cfg : SortConfig) (f : SrcFile)
    (hext : (splitext f.path).2 = "")
    (hmap : assocLookup cfg.extensionMapping "" = none)
    (hd1 : ¬cfg.destDir = "") (hd2 : ¬cfg.destDir.data.getLast? = some '/')
    (hb2 : ¬(basename f.path).data.head? = some '/') :
    upperStr (strDrop 1 (fileExt f)) = "" ∧
    destDirFor cfg f =
      cfg.destDir ++ "/" ++ formatYear (get_creation_date f).year ++ "/" ++
        pad2 (get_creation_date f).month ++ "/" ∧
    candDest cfg f =
      cfg.destDir ++ "/" ++ formatYear (get_creation_date f).year ++ "/" ++
        pad2 (get_creation_date f).month ++ "/" ++ basename f.path := by
  have hfe : fileExt f = "" := by
    unfold fileExt
    rw [hext]
    rfl
  have htype : upperStr (strDrop 1 (fileExt f)) = "" := by rw [hfe]; rfl
  have df := dateDir_facts cfg.destDir (get_creation_date f).year
    (get_creation_date f).month hd1 hd2
  have hdir : destDirFor cfg f =
      cfg.destDir ++ "/" ++ formatYear (get_creation_date f).year ++ "/" ++
        pad2 (get_creation_date f).month ++ "/" := by
    unfold destDirFor
    simp only [hfe, hmap]
    rw [show upperStr (strDrop 1 "") = "" from rfl, df.1]
    unfold pathJoin
    rw [if_neg (by decide), if_neg (not_or.mpr ⟨df.2.1, df.2.2⟩), String.append_empty]
  refine ⟨htype, hdir, ?_⟩
  unfold candDest
  rw [hdir]
  unfold pathJoin
  rw [if_neg hb2,
    if_pos (Or.inr (by rw [strAppend_getLast _ "/" (by decide)]; rfl))]

/-- C10 witness: the extensionless `s/README` (mtime 2021-07-03) is placed at
`dest/2021/07/README`, directly inside the month folder, with an empty type
segment. -/
theorem c10_extensionless_month_folder_witness :
    upperStr (strDrop 1 (fileExt c10f)) = "" ∧
    candDest c10cfg c10f = "dest/2021/07/README" :=
  ⟨(c10_extensionless_month_folder c10cfg c10f (by decide) (by decide) (by decide)
      (by decide) (by decide)).1,
   ((c10_extensionless_month_folder c10cfg c10f (by decide) (by decide) (by decide)
      (by decide) (by decide)).2.2).trans (by decide)⟩

end PhotoSorter
